import Mathlib

/-!
Shallow embedding of `pageserver/src/layered_repository/image_layer.rs`:
the immutable image-layer file format, its writer (`ImageLayerWriter`)
and its reader (`ImageLayer`).

Machine integers are modelled as `Nat` (offsets and lengths never
overflow in the scenarios the file format supports).  Collaborator
modules that are not part of the repository snapshot (`blob_io`,
`storage_layer`'s `BlobRef` / `ValueReconstruct*`, `bin_ser`) are
modelled from the specification; each such definition carries a doc
comment saying so.  Stateful Rust code (`&mut self`, the `RwLock`-guarded
`inner`) becomes explicit state passing; fallible code returns
`Option` / `Except`; `assert!` / `todo!` panics become explicit error
values.
-/

/-- PAGE_SZ from `page_cache`: the fixed block size of the file format. -/
def PAGE_SZ : Nat := 8192

/-- Modelled from the spec: the image-file magic constant (defined outside
the snapshot, in the crate root).  Its concrete value is opaque; only
equality matters. -/
def IMAGE_FILE_MAGIC : Nat := 0x5A60

/-- Modelled from the spec: the storage format version constant (defined
outside the snapshot, in the crate root). -/
def STORAGE_FORMAT_VERSION : Nat := 3

/-- Rust `Range<T>` specialised to `Nat` keys / LSNs: a half-open range
`[start, stop)` (`end` is a Lean keyword, hence `stop`). -/
structure NRange where
  start : Nat
  stop : Nat
deriving DecidableEq, Repr

/-- Rust `Range::contains`: `start ≤ x < stop`. -/
def NRange.contains (r : NRange) (x : Nat) : Bool :=
  decide (r.start ≤ x) && decide (x < r.stop)

/-- Modelled from the spec: `BlobRef` (from `storage_layer`, not in the
snapshot) is a byte offset into the file plus a flag bit marking
"image" as opposed to "delta". -/
structure BlobRef where
  pos : Nat
  image : Bool
deriving DecidableEq, Repr

/-- Modelled from the spec: the blob length prefix written by
`blob_io::WriteBlobWriter` (not in the snapshot).  A 1-byte tag; if the
high bit is clear the low 7 bits are the length; otherwise the
remaining 7 bits are the high 7 bits of a 4-byte big-endian length and
three more bytes follow.  Unambiguous up to lengths below 2^31. -/
def blobHeader (len : Nat) : List Nat :=
  if len < 128 then [len]
  else [128 + len / 16777216 % 128, len / 65536 % 256, len / 256 % 256, len % 256]

/-- Modelled from the spec: decoding one blob starting at the head of a
byte sequence (the reading half of the prefix scheme of `blobHeader`). -/
def decode_blob : List Nat → Option (List Nat)
  | [] => none
  | tag :: rest =>
    if tag < 128 then
      if tag ≤ rest.length then some (rest.take tag) else none
    else
      match rest with
      | b1 :: b2 :: b3 :: rest2 =>
        let len := (tag - 128) * 16777216 + b1 * 65536 + b2 * 256 + b3
        if len ≤ rest2.length then some (rest2.take len) else none
      | _ => none

/-- Modelled from the spec: `BlobCursor::read_blob` at an absolute file
offset.  `values` is the byte content of the values region, which
starts at file offset `PAGE_SZ` (the blob writer is seeded there); an
offset inside the summary block or past the written bytes fails. -/
def read_blob (values : List Nat) (pos : Nat) : Option (List Nat) :=
  if pos < PAGE_SZ then none
  else decode_blob (values.drop (pos - PAGE_SZ))

/-- Modelled from the spec: the two-variant `PathOrConf` from `filename`
(not in the snapshot).  `conf` stands for a tenant configuration from
which the canonical path is derived; `path` is a directly supplied path
(debug tool), carrying only its file name, the part `load_inner`
compares. -/
inductive PathOrConf where
  | conf : PathOrConf
  | path : String → PathOrConf
deriving DecidableEq

/-- The fixed header at block 0 of an image-layer file
(struct `Summary`). -/
structure Summary where
  magic : Nat
  format_version : Nat
  tenantid : Nat
  timelineid : Nat
  key_range : NRange
  lsn : Nat
  index_start_blk : Nat
deriving DecidableEq, Repr

/-- The on-disk file as the reader sees it, abstracting the block layout:
`summary_page` is the result of `Summary::des_prefix` on block 0
(`none` = the summary does not decode); `values` is the byte content of
the values region (file offsets `PAGE_SZ + i`); `index_rec` is the
`(Key, BlobRef)` record sequence of the index region at
`index_start_blk × PAGE_SZ`. -/
structure DiskFile where
  summary_page : Option Summary
  values : List Nat
  index_rec : List (Nat × BlobRef)
deriving DecidableEq

/-- Struct `ImageLayerInner`: the `RwLock`-guarded mutable state. -/
structure ImageLayerInner where
  loaded : Bool
  index : List (Nat × BlobRef)
  index_start_blk : Nat
  file : Option DiskFile
deriving DecidableEq

/-- Struct `ImageLayer`: identity of the layer plus the inner state (the
lock becomes explicit state passing in this sequential embedding). -/
structure ImageLayer where
  path_or_conf : PathOrConf
  tenantid : Nat
  timelineid : Nat
  key_range : NRange
  lsn : Nat
  inner : ImageLayerInner
deriving DecidableEq

/-- `HashMap::get` on the index, rendered as first-match lookup on the
association list (keys are unique in every reachable index). -/
def lookupKey : List (Nat × BlobRef) → Nat → Option BlobRef
  | [], _ => none
  | p :: rest, k => if p.1 = k then some p.2 else lookupKey rest k

/-- `ImageLayer::get_lsn_range`: the half-open range `lsn..(lsn + 1)`
(end-bound exclusive). -/
def ImageLayer.get_lsn_range (L : ImageLayer) : NRange :=
  ⟨L.lsn, L.lsn + 1⟩

/-- `ImageLayer::iter` is `todo!()`: every call panics; the panic is
modelled as an error value. -/
def ImageLayer.iter (L : ImageLayer) :
    Except String (List (Nat × Nat × List Nat)) :=
  .error "not yet implemented"

/-- `Summary::from(&ImageLayer)`: the declared identity with
`index_start_blk = 0`. -/
def Summary.fromLayer (L : ImageLayer) : Summary :=
  { magic := IMAGE_FILE_MAGIC
    format_version := STORAGE_FORMAT_VERSION
    tenantid := L.tenantid
    timelineid := L.timelineid
    key_range := L.key_range
    lsn := L.lsn
    index_start_blk := 0 }

/-- The `expected_summary` that `load_inner` compares against: the
declared identity with `index_start_blk` overwritten by the decoded
summary's value, i.e. excluded from the comparison. -/
def expected_summary (L : ImageLayer) (blk : Nat) : Summary :=
  { Summary.fromLayer L with index_start_blk := blk }

/-- Spec-side reading of step 5 of the load protocol: the decoded
summary equals the declared identity on every field other than
`index_start_blk`. -/
def summaryMatches (L : ImageLayer) (s : Summary) : Prop :=
  s.magic = IMAGE_FILE_MAGIC ∧ s.format_version = STORAGE_FORMAT_VERSION ∧
  s.tenantid = L.tenantid ∧ s.timelineid = L.timelineid ∧
  s.key_range = L.key_range ∧ s.lsn = L.lsn

/-- Errors out of `load` / `load_inner` (all are `anyhow::Error` in the
source; the variants record which failure occurred). -/
inductive LoadErr where
  | ioError : LoadErr
  | formatError : LoadErr
  | summaryMismatch : LoadErr
deriving DecidableEq

/-- Modelled from the spec: `HashMap::des` of the index region
(`bin_ser`, not in the snapshot): reconstructs the mapping from the
record sequence, rejecting duplicate keys. -/
def des_index (recs : List (Nat × BlobRef)) : Option (List (Nat × BlobRef)) :=
  if (recs.map Prod.fst).Nodup then some recs else none

/-- Tail of `ImageLayer::load_inner` after the index decode: set
`index_start_blk` from the decoded summary, install the index, mark
loaded. -/
def load_index (inner : ImageLayerInner) (d : DiskFile) (actual : Summary) :
    ImageLayerInner × Option LoadErr :=
  match des_index d.index_rec with
  | none => (inner, some .formatError)
  | some idx =>
    ({ inner with index_start_blk := actual.index_start_blk
                  index := idx
                  loaded := true }, none)

/-- Body of `ImageLayer::load_inner` once a file handle is at hand:
decode the summary from block 0; under `PathOrConf::Conf` compare it
with the declared identity (`index_start_blk` excluded) and fail on
mismatch; under `PathOrConf::Path` a file-name mismatch is only printed
(a side effect with no state, hence absent here); then decode the
index. -/
def load_with_file (L : ImageLayer) (inner : ImageLayerInner) (d : DiskFile) :
    ImageLayerInner × Option LoadErr :=
  match d.summary_page with
  | none => (inner, some .formatError)
  | some actual =>
    match L.path_or_conf with
    | .conf =>
      if actual = expected_summary L actual.index_start_blk
      then load_index inner d actual
      else (inner, some .summaryMismatch)
    | .path _ => load_index inner d actual

/-- `ImageLayer::load_inner`: open the file if no handle is cached
(`disk` is what `VirtualFile::open` would find: `none` = open fails),
then read and validate the summary and decode the index.  The handle is
installed before any further step, as in the source. -/
def load_inner (L : ImageLayer) (disk : Option DiskFile) :
    ImageLayerInner × Option LoadErr :=
  match L.inner.file with
  | some d => load_with_file L L.inner d
  | none =>
    match disk with
    | none => (L.inner, some .ioError)
    | some d => load_with_file L { L.inner with file := some d } d

/-- `ImageLayer::load`: the read-try / upgrade / re-check loop collapsed
to its sequential semantics — return at once when loaded, otherwise run
`load_inner` under the write lock. -/
def load (L : ImageLayer) (disk : Option DiskFile) : ImageLayer × Option LoadErr :=
  if L.inner.loaded then (L, none)
  else
    match load_inner L disk with
    | (inner2, e) => ({ L with inner := inner2 }, e)

/-- Result of resolving a value in a layer (enum
`ValueReconstructResult` from `storage_layer`, not in the snapshot):
`complete` = done, `continueWithOlder` = "continue the search in an
older layer", `missing` = the key does not exist. -/
inductive ValueReconstructResult where
  | complete : ValueReconstructResult
  | continueWithOlder : ValueReconstructResult
  | missing : ValueReconstructResult
deriving DecidableEq, Repr

/-- Modelled from the spec: the accumulator `ValueReconstructState`
(from `storage_layer`, not in the snapshot); `get_value_reconstruct_data`
only assigns the `img` field, `records` is untouched. -/
structure ValueReconstructState where
  records : List (Nat × List Nat)
  img : Option (Nat × List Nat)
deriving DecidableEq, Repr

/-- Failures of `get_value_reconstruct_data`: a failed entry `assert!`
(a panic in the source), an error propagated from `load`, or a failed
blob read. -/
inductive GetErr where
  | assertFailed : GetErr
  | loadError : LoadErr → GetErr
  | readError : GetErr
deriving DecidableEq

/-- Body of `get_value_reconstruct_data` once the index is loaded: look
the key up; present ⇒ read the blob and record `(lsn, bytes)` in `img`,
returning `Complete`; absent ⇒ `Missing`. -/
def get_value_loaded (L2 : ImageLayer) (key : Nat) (st : ValueReconstructState) :
    Except GetErr (ValueReconstructState × ValueReconstructResult) :=
  match lookupKey L2.inner.index key with
  | some blob_ref =>
    match L2.inner.file with
    | none => .error .readError
    | some d =>
      match read_blob d.values blob_ref.pos with
      | none => .error .readError
      | some buf => .ok ({ st with img := some (L2.lsn, buf) }, .complete)
  | none => .ok (st, .missing)

/-- `ImageLayer::get_value_reconstruct_data`: assert
`key_range.contains(&key)` and `lsn_range.end >= self.lsn` (panics
modelled as `assertFailed`), load, then resolve.  Returns the
post-state of the layer alongside the result. -/
def get_value_reconstruct_data (L : ImageLayer) (disk : Option DiskFile)
    (key : Nat) (lsn_range : NRange) (st : ValueReconstructState) :
    ImageLayer × Except GetErr (ValueReconstructState × ValueReconstructResult) :=
  if L.key_range.contains key then
    if L.lsn ≤ lsn_range.stop then
      match load L disk with
      | (L2, some e) => (L2, .error (.loadError e))
      | (L2, none) => (L2, get_value_loaded L2 key st)
    else (L, .error .assertFailed)
  else (L, .error .assertFailed)

/-- Outcome of `try_write` on the inner lock (a poisoned lock panics the
process in the source and is outside the model). -/
inductive TryLockResult where
  | acquired : TryLockResult
  | wouldBlock : TryLockResult
deriving DecidableEq

/-- u32::MAX, for the probabilistic gate in `unload`. -/
def U32_MAX : Nat := 4294967295

/-- `ImageLayer::unload`: skip (returning `Ok`) when the random draw
exceeds `u32::MAX / 10` or the non-blocking write lock would block;
otherwise drop the index and clear `loaded`, keeping the file handle
and `index_start_blk`.  `rand_val` is the value `next_u32` returned and
`lock` the outcome of `try_write`, both inputs of this embedding. -/
def unload (L : ImageLayer) (rand_val : Nat) (lock : TryLockResult) :
    ImageLayer × Except String Unit :=
  if rand_val > U32_MAX / 10 then (L, .ok ())
  else
    match lock with
    | .wouldBlock => (L, .ok ())
    | .acquired =>
      ({ L with inner := { L.inner with index := [], loaded := false } }, .ok ())

/-- Errors of `ImageLayerWriter::put_image`: the `ensure!` range check
(`OutOfRange`) and the duplicate-key `assert!` (a panic in the source). -/
inductive PutOutcome where
  | ok : PutOutcome
  | outOfRange : PutOutcome
  | duplicatePanic : PutOutcome
deriving DecidableEq

/-- Struct `ImageLayerWriter`.  `blob_buf` is the byte content written
to the values region so far; the `WriteBlobWriter` is seeded at offset
`PAGE_SZ`, so its running offset is `PAGE_SZ + blob_buf.length`. -/
structure ImageLayerWriter where
  tenantid : Nat
  timelineid : Nat
  key_range : NRange
  lsn : Nat
  index : List (Nat × BlobRef)
  blob_buf : List Nat
deriving DecidableEq

/-- `WriteBlobWriter::size()`: the running byte offset, seeded at
`PAGE_SZ` by `ImageLayerWriter::new`. -/
def ImageLayerWriter.size (w : ImageLayerWriter) : Nat :=
  PAGE_SZ + w.blob_buf.length

/-- `ImageLayerWriter::new`: fresh writer with an empty index and a blob
writer seeded at offset `PAGE_SZ` (file creation is abstracted away;
the summary is written last, by `finish`). -/
def ImageLayerWriter.new (tenantid timelineid : Nat) (key_range : NRange)
    (lsn : Nat) : ImageLayerWriter :=
  { tenantid, timelineid, key_range, lsn, index := [], blob_buf := [] }

/-- `ImageLayerWriter::put_image`: `ensure!` the key is in range (error
`OutOfRange`, before any write), write the blob, insert
`(key, BlobRef(offset, image=true))` and `assert!` the key was not
present (the panic leaves the post-state unobservable; the blob bytes
written before it are kept here). -/
def put_image (w : ImageLayerWriter) (key : Nat) (img : List Nat) :
    ImageLayerWriter × PutOutcome :=
  if w.key_range.contains key then
    let off := PAGE_SZ + w.blob_buf.length
    let buf := w.blob_buf ++ blobHeader img.length ++ img
    if (lookupKey w.index key).isSome then
      ({ w with blob_buf := buf }, .duplicatePanic)
    else
      ({ w with blob_buf := buf, index := w.index ++ [(key, ⟨off, true⟩)] }, .ok)
  else (w, .outOfRange)

/-- `ImageLayerWriter::finish`: compute
`index_start_blk = ⌈size / PAGE_SZ⌉`, write the index there and the
summary at block 0, and hand back the on-disk file together with an
`ImageLayer` in the not-loaded state (the write-only handle is
dropped, so `file = none`). -/
def finish (w : ImageLayerWriter) : DiskFile × ImageLayer :=
  let index_start_blk := (w.size + PAGE_SZ - 1) / PAGE_SZ
  let summary : Summary :=
    { magic := IMAGE_FILE_MAGIC
      format_version := STORAGE_FORMAT_VERSION
      tenantid := w.tenantid
      timelineid := w.timelineid
      key_range := w.key_range
      lsn := w.lsn
      index_start_blk }
  ({ summary_page := some summary, values := w.blob_buf, index_rec := w.index },
   { path_or_conf := .conf
     tenantid := w.tenantid
     timelineid := w.timelineid
     key_range := w.key_range
     lsn := w.lsn
     inner :=
       { loaded := false, index := [], file := none, index_start_blk } })

/-- Running a sequence of `put_image` calls; `none` when one of them
errors or panics. -/
def writerOps (w : ImageLayerWriter) : List (Nat × List Nat) → Option ImageLayerWriter
  | [] => some w
  | (k, img) :: rest =>
    match put_image w k img with
    | (w2, .ok) => writerOps w2 rest
    | _ => none

/-- The on-disk summary of the concrete fixture below. -/
def sampleSummary : Summary :=
  { magic := IMAGE_FILE_MAGIC
    format_version := STORAGE_FORMAT_VERSION
    tenantid := 1
    timelineid := 2
    key_range := ⟨0, 10⟩
    lsn := 7
    index_start_blk := 2 }

/-- A concrete on-disk fixture: one key (5) at offset `PAGE_SZ`, whose
blob is `[3, 1, 2, 3]` (length prefix 3, payload `[1, 2, 3]`). -/
def sampleDisk : DiskFile :=
  { summary_page := some sampleSummary
    values := [3, 1, 2, 3]
    index_rec := [(5, ⟨8192, true⟩)] }

/-- A loaded layer over `sampleDisk`. -/
def sampleLayerLoaded : ImageLayer :=
  { path_or_conf := .conf, tenantid := 1, timelineid := 2
    key_range := ⟨0, 10⟩, lsn := 7
    inner := { loaded := true, index := [(5, ⟨8192, true⟩)]
               index_start_blk := 2, file := some sampleDisk } }

/-- A freshly opened (never loaded) layer with the same identity. -/
def sampleLayerUnloaded : ImageLayer :=
  { path_or_conf := .conf, tenantid := 1, timelineid := 2
    key_range := ⟨0, 10⟩, lsn := 7
    inner := { loaded := false, index := [], index_start_blk := 0, file := none } }

/-- The empty reconstruction accumulator. -/
def sampleState : ValueReconstructState := { records := [], img := none }

/-- A decoded summary disagreeing with `sampleSummary` on `lsn` only. -/
def mismatchSummary : Summary := { sampleSummary with lsn := 99 }

/-- A disk file whose summary carries the wrong LSN. -/
def mismatchDisk : DiskFile :=
  { summary_page := some mismatchSummary, values := [], index_rec := [] }

/-- A configuration-derived layer whose cached handle points at
`mismatchDisk`: its declared LSN (7) disagrees with the file's (99). -/
def mismatchLayer : ImageLayer :=
  { path_or_conf := .conf
    tenantid := 1
    timelineid := 2
    key_range := ⟨0, 10⟩
    lsn := 7
    inner := { loaded := false, index := [], index_start_blk := 0
               file := some mismatchDisk } }

/-- Taking `n ≤ length` elements ignores anything appended afterwards. -/
theorem take_append_of_le {α : Type} (n : Nat) (l₁ l₂ : List α) (h : n ≤ l₁.length) :
    (l₁ ++ l₂).take n = l₁.take n := by
  induction l₁ generalizing n with
  | nil => simp_all
  | cons a t ih =>
    cases n with
    | zero => simp
    | succ m => simp only [List.cons_append, List.take_succ_cons]; rw [ih]; simpa using h

/-- Dropping `n ≤ length` elements commutes with a later append. -/
theorem drop_append_of_le {α : Type} (n : Nat) (l₁ l₂ : List α) (h : n ≤ l₁.length) :
    (l₁ ++ l₂).drop n = l₁.drop n ++ l₂ := by
  induction l₁ generalizing n with
  | nil => simp_all
  | cons a t ih =>
    cases n with
    | zero => simp
    | succ m => simp only [List.cons_append, List.drop_succ_cons]; exact ih m (by simpa using h)

/-- Unfolding equation of `decode_blob` for a short (1-byte) header. -/
theorem decode_blob_cons_short (tag : Nat) (rest : List Nat) (h : tag < 128) :
    decode_blob (tag :: rest) =
      if tag ≤ rest.length then some (rest.take tag) else none := by
  simp [decode_blob, h]

/-- Unfolding equation of `decode_blob` for a long (4-byte) header. -/
theorem decode_blob_cons_long (tag b1 b2 b3 : Nat) (rest2 : List Nat) (h : ¬ tag < 128) :
    decode_blob (tag :: b1 :: b2 :: b3 :: rest2) =
      if (tag - 128) * 16777216 + b1 * 65536 + b2 * 256 + b3 ≤ rest2.length
      then some (rest2.take ((tag - 128) * 16777216 + b1 * 65536 + b2 * 256 + b3))
      else none := by
  simp [decode_blob, h]

/-- A successfully decoded blob is unaffected by bytes appended after it. -/
theorem decode_blob_append (bs ex v : List Nat) (h : decode_blob bs = some v) :
    decode_blob (bs ++ ex) = some v := by
  cases bs with
  | nil => simp [decode_blob] at h
  | cons tag rest =>
    rw [List.cons_append]
    by_cases htag : tag < 128
    · rw [decode_blob_cons_short tag rest htag] at h
      by_cases hlen : tag ≤ rest.length
      · rw [if_pos hlen] at h
        rw [decode_blob_cons_short tag (rest ++ ex) htag,
          if_pos (by rw [List.length_append]; omega),
          take_append_of_le tag rest ex hlen]
        exact h
      · rw [if_neg hlen] at h; exact absurd h (by simp)
    · cases rest with
      | nil => simp [decode_blob, htag] at h
      | cons b1 r1 =>
        cases r1 with
        | nil => simp [decode_blob, htag] at h
        | cons b2 r2 =>
          cases r2 with
          | nil => simp [decode_blob, htag] at h
          | cons b3 rest2 =>
            rw [List.cons_append, List.cons_append, List.cons_append]
            rw [decode_blob_cons_long tag b1 b2 b3 rest2 htag] at h
            by_cases hlen : (tag - 128) * 16777216 + b1 * 65536 + b2 * 256 + b3 ≤ rest2.length
            · rw [if_pos hlen] at h
              rw [decode_blob_cons_long tag b1 b2 b3 (rest2 ++ ex) htag,
                if_pos (by rw [List.length_append]; omega),
                take_append_of_le _ rest2 ex hlen]
              exact h
            · rw [if_neg hlen] at h; exact absurd h (by simp)

/-- Decoding the freshly written header-plus-payload recovers the payload,
for payloads below the 2^31-byte limit of the prefix scheme. -/
theorem decode_blob_header (img : List Nat) (h : img.length < 2 ^ 31) :
    decode_blob (blobHeader img.length ++ img) = some img := by
  by_cases hs : img.length < 128
  · simp [blobHeader, decode_blob, hs]
  · have h24 : img.length / 16777216 % 128 = img.length / 16777216 := by omega
    simp only [blobHeader, hs, if_false, List.cons_append, List.nil_append]
    have htag : ¬ (128 + img.length / 16777216 % 128 < 128) := by omega
    simp only [decode_blob, htag, if_false]
    have hlen : (128 + img.length / 16777216 % 128 - 128) * 16777216 +
        img.length / 65536 % 256 * 65536 + img.length / 256 % 256 * 256 +
        img.length % 256 = img.length := by omega
    rw [hlen]
    simp

/-- Reading back a blob just written at the current end of the values
region (absolute offset `PAGE_SZ + buf.length`) yields the payload. -/
theorem read_blob_here (buf img : List Nat) (h : img.length < 2 ^ 31) :
    read_blob (buf ++ blobHeader img.length ++ img) (PAGE_SZ + buf.length) = some img := by
  unfold read_blob
  rw [if_neg (by omega)]
  have hdrop : (buf ++ blobHeader img.length ++ img).drop (PAGE_SZ + buf.length - PAGE_SZ) =
      blobHeader img.length ++ img := by
    rw [Nat.add_sub_cancel_left, List.append_assoc, List.drop_left]
  rw [hdrop]
  exact decode_blob_header img h

/-- A successful `read_blob` is unaffected by bytes appended to the
values region afterwards. -/
theorem read_blob_append (buf ex : List Nat) (pos : Nat) (v : List Nat)
    (h : read_blob buf pos = some v) : read_blob (buf ++ ex) pos = some v := by
  unfold read_blob at h ⊢
  by_cases hp : pos < PAGE_SZ
  · simp [hp] at h
  · rw [if_neg hp] at h ⊢
    have hlt : pos - PAGE_SZ ≤ buf.length := by
      by_contra hgt
      rw [List.drop_eq_nil_of_le (by omega)] at h
      simp [decode_blob] at h
    rw [drop_append_of_le _ buf ex hlt]
    exact decode_blob_append _ ex v h

/-- A hit in the left part of an index is a hit in the whole index. -/
theorem lookupKey_append_some (l l2 : List (Nat × BlobRef)) (k : Nat) (r : BlobRef)
    (h : lookupKey l k = some r) : lookupKey (l ++ l2) k = some r := by
  induction l with
  | nil => simp [lookupKey] at h
  | cons p rest ih =>
    rw [List.cons_append]
    unfold lookupKey at h ⊢
    by_cases hp : p.1 = k
    · rwa [if_pos hp] at h ⊢
    · rw [if_neg hp] at h ⊢; exact ih h

/-- A miss in the whole index is a miss in its left part. -/
theorem lookupKey_append_none (l l2 : List (Nat × BlobRef)) (k : Nat)
    (h : lookupKey (l ++ l2) k = none) : lookupKey l k = none := by
  induction l with
  | nil => simp [lookupKey]
  | cons p rest ih =>
    rw [List.cons_append] at h
    unfold lookupKey at h ⊢
    by_cases hp : p.1 = k
    · rw [if_pos hp] at h; cases h
    · rw [if_neg hp] at h ⊢; exact ih h

/-- Appending a fresh binding makes it visible. -/
theorem lookupKey_append_fresh (l : List (Nat × BlobRef)) (k : Nat) (r : BlobRef)
    (h : lookupKey l k = none) : lookupKey (l ++ [(k, r)]) k = some r := by
  induction l with
  | nil => simp [lookupKey]
  | cons p rest ih =>
    rw [List.cons_append]
    unfold lookupKey at h ⊢
    by_cases hp : p.1 = k
    · rw [if_pos hp] at h; cases h
    · rw [if_neg hp] at h ⊢; exact ih h

/-- A key misses the index exactly when it is not among the stored keys. -/
theorem lookupKey_none_iff (l : List (Nat × BlobRef)) (k : Nat) :
    lookupKey l k = none ↔ k ∉ l.map Prod.fst := by
  induction l with
  | nil => simp [lookupKey]
  | cons p rest ih =>
    unfold lookupKey
    by_cases hp : p.1 = k
    · simp [hp]
    · simp only [if_neg hp, List.map_cons, List.mem_cons, ih]
      constructor
      · rintro hnone (h1 | h2)
        · exact hp h1.symm
        · exact hnone h2
      · intro hnot; exact fun h2 => hnot (Or.inr h2)

/-- What a successful `put_image` did: the key was in range and fresh,
one blob was appended, one index entry recorded at the pre-write
offset with the image flag set. -/
theorem put_image_ok (w : ImageLayerWriter) (key : Nat) (img : List Nat)
    (w2 : ImageLayerWriter) (h : put_image w key img = (w2, .ok)) :
    w.key_range.contains key = true ∧ lookupKey w.index key = none ∧
    w2 = { w with blob_buf := w.blob_buf ++ blobHeader img.length ++ img,
                  index := w.index ++ [(key, ⟨PAGE_SZ + w.blob_buf.length, true⟩)] } := by
  simp only [put_image] at h
  split at h
  case isTrue hc =>
    split at h
    case isTrue hl =>
      injection h with h1 h2
      exact PutOutcome.noConfusion h2
    case isFalse hl =>
      injection h with h1 h2
      refine ⟨hc, ?_, h1.symm⟩
      cases hlk : lookupKey w.index key with
      | none => rfl
      | some r => rw [hlk] at hl; simp at hl
  case isFalse hc =>
    injection h with h1 h2
    exact PutOutcome.noConfusion h2

/-- The identity fields of a writer survive a run of `put_image` calls. -/
theorem writerOps_fields (ops : List (Nat × List Nat)) (w w2 : ImageLayerWriter)
    (h : writerOps w ops = some w2) :
    w2.tenantid = w.tenantid ∧ w2.timelineid = w.timelineid ∧
    w2.key_range = w.key_range ∧ w2.lsn = w.lsn := by
  induction ops generalizing w with
  | nil => cases h; exact ⟨rfl, rfl, rfl, rfl⟩
  | cons op rest ih =>
    obtain ⟨k0, img0⟩ := op
    simp only [writerOps] at h
    rcases hp : put_image w k0 img0 with ⟨w1, oc⟩
    rw [hp] at h
    cases oc with
    | ok =>
      obtain ⟨-, -, hw1⟩ := put_image_ok _ _ _ _ hp
      obtain ⟨h1, h2, h3, h4⟩ := ih w1 h
      rw [hw1] at h1 h2 h3 h4
      exact ⟨h1, h2, h3, h4⟩
    | outOfRange => cases h
    | duplicatePanic => cases h

/-- Existing index entries and already-written blobs are untouched by a
later run of `put_image` calls. -/
theorem writerOps_preserve (ops : List (Nat × List Nat)) (w w2 : ImageLayerWriter)
    (h : writerOps w ops = some w2) :
    (∀ k r, lookupKey w.index k = some r → lookupKey w2.index k = some r) ∧
    (∀ p v, read_blob w.blob_buf p = some v → read_blob w2.blob_buf p = some v) := by
  induction ops generalizing w with
  | nil => cases h; exact ⟨fun _ _ hk => hk, fun _ _ hv => hv⟩
  | cons op rest ih =>
    obtain ⟨k0, img0⟩ := op
    simp only [writerOps] at h
    rcases hp : put_image w k0 img0 with ⟨w1, oc⟩
    rw [hp] at h
    cases oc with
    | ok =>
      obtain ⟨-, -, hw1⟩ := put_image_ok _ _ _ _ hp
      obtain ⟨ih1, ih2⟩ := ih w1 h
      constructor
      · intro k r hk
        exact ih1 k r (by rw [hw1]; exact lookupKey_append_some _ _ _ _ hk)
      · intro p v hv
        refine ih2 p v ?_
        rw [hw1]
        show read_blob (w.blob_buf ++ blobHeader img0.length ++ img0) p = some v
        rw [List.append_assoc]
        exact read_blob_append _ _ _ _ hv
    | outOfRange => cases h
    | duplicatePanic => cases h

/-- Every key of a successfully written batch was absent from the index
the batch started from. -/
theorem writerOps_key_free (ops : List (Nat × List Nat)) (w w2 : ImageLayerWriter)
    (h : writerOps w ops = some w2) (k : Nat) (img : List Nat)
    (hmem : (k, img) ∈ ops) : lookupKey w.index k = none := by
  induction ops generalizing w with
  | nil => simp at hmem
  | cons op rest ih =>
    obtain ⟨k0, img0⟩ := op
    simp only [writerOps] at h
    rcases hp : put_image w k0 img0 with ⟨w1, oc⟩
    rw [hp] at h
    cases oc with
    | ok =>
      obtain ⟨-, hnone, hw1⟩ := put_image_ok _ _ _ _ hp
      rcases List.mem_cons.mp hmem with heq | hmem2
      · have hk : k = k0 := congrArg Prod.fst heq
        rw [hk]
        exact hnone
      · have h1 := ih w1 h hmem2
        rw [hw1] at h1
        exact lookupKey_append_none _ _ _ h1
    | outOfRange => cases h
    | duplicatePanic => cases h

/-- Every key of a successfully written batch lies in the writer's
declared key range. -/
theorem writerOps_in_range (ops : List (Nat × List Nat)) (w w2 : ImageLayerWriter)
    (h : writerOps w ops = some w2) (k : Nat) (img : List Nat)
    (hmem : (k, img) ∈ ops) : w.key_range.contains k = true := by
  induction ops generalizing w with
  | nil => simp at hmem
  | cons op rest ih =>
    obtain ⟨k0, img0⟩ := op
    simp only [writerOps] at h
    rcases hp : put_image w k0 img0 with ⟨w1, oc⟩
    rw [hp] at h
    cases oc with
    | ok =>
      obtain ⟨hc, -, hw1⟩ := put_image_ok _ _ _ _ hp
      rcases List.mem_cons.mp hmem with heq | hmem2
      · have hk : k = k0 := congrArg Prod.fst heq
        rwa [hk]
      · have h1 := ih w1 h hmem2
        rwa [hw1] at h1
    | outOfRange => cases h
    | duplicatePanic => cases h

/-- A run of successful `put_image` calls keeps the stored keys
pairwise distinct. -/
theorem writerOps_nodup (ops : List (Nat × List Nat)) (w w2 : ImageLayerWriter)
    (h : writerOps w ops = some w2) (hn : (w.index.map Prod.fst).Nodup) :
    (w2.index.map Prod.fst).Nodup := by
  induction ops generalizing w with
  | nil => cases h; exact hn
  | cons op rest ih =>
    obtain ⟨k0, img0⟩ := op
    simp only [writerOps] at h
    rcases hp : put_image w k0 img0 with ⟨w1, oc⟩
    rw [hp] at h
    cases oc with
    | ok =>
      obtain ⟨-, hnone, hw1⟩ := put_image_ok _ _ _ _ hp
      refine ih w1 h ?_
      rw [hw1]
      show (List.map Prod.fst (w.index ++ [(k0, ⟨PAGE_SZ + w.blob_buf.length, true⟩)])).Nodup
      rw [List.map_append]
      rw [List.nodup_append]
      refine ⟨hn, by simp, ?_⟩
      intro a ha hb
      simp only [List.map_cons, List.map_nil, List.mem_singleton] at hb
      subst hb
      exact (lookupKey_none_iff _ _).mp hnone ha
    | outOfRange => cases h
    | duplicatePanic => cases h

/-- After a successful batch, every written key is bound in the final
index to an offset at which the final values region holds exactly the
bytes that were passed in. -/
theorem writerOps_find (ops : List (Nat × List Nat)) (w w2 : ImageLayerWriter)
    (h : writerOps w ops = some w2) (k : Nat) (img : List Nat)
    (hmem : (k, img) ∈ ops) (hlen : img.length < 2 ^ 31) :
    ∃ off, lookupKey w2.index k = some ⟨off, true⟩ ∧
      read_blob w2.blob_buf off = some img := by
  induction ops generalizing w with
  | nil => simp at hmem
  | cons op rest ih =>
    obtain ⟨k0, img0⟩ := op
    simp only [writerOps] at h
    rcases hp : put_image w k0 img0 with ⟨w1, oc⟩
    rw [hp] at h
    cases oc with
    | ok =>
      obtain ⟨-, hnone, hw1⟩ := put_image_ok _ _ _ _ hp
      rcases List.mem_cons.mp hmem with heq | hmem2
      · have hk : k = k0 := congrArg Prod.fst heq
        have hi : img = img0 := congrArg Prod.snd heq
        subst hk; subst hi
        obtain ⟨hpre1, hpre2⟩ := writerOps_preserve rest w1 w2 h
        refine ⟨PAGE_SZ + w.blob_buf.length, ?_, ?_⟩
        · refine hpre1 k _ ?_
          rw [hw1]
          exact lookupKey_append_fresh _ _ _ hnone
        · refine hpre2 _ _ ?_
          rw [hw1]
          exact read_blob_here w.blob_buf img hlen
      · exact ih w1 h hmem2
    | outOfRange => cases h
    | duplicatePanic => cases h

/-- The loaded-path body of the point lookup yields exactly one of:
`Complete` with `img` set to `(lsn, blob bytes)`, `Missing`, or a blob
read failure (never an assertion failure, never a "continue"). -/
theorem get_value_loaded_shape (L2 : ImageLayer) (key : Nat) (st : ValueReconstructState) :
    (∃ buf, get_value_loaded L2 key st =
        .ok ({ st with img := some (L2.lsn, buf) }, .complete)) ∨
    get_value_loaded L2 key st = .ok (st, .missing) ∨
    get_value_loaded L2 key st = .error .readError := by
  unfold get_value_loaded
  split
  · split
    · right; right; rfl
    · split
      · right; right; rfl
      · left; exact ⟨_, rfl⟩
  · right; left; rfl

/-- A successful point lookup never asks to continue in an older layer. -/
theorem get_value_ok_cases (L : ImageLayer) (disk : Option DiskFile) (key : Nat)
    (lr : NRange) (st st2 : ValueReconstructState) (r : ValueReconstructResult)
    (h : (get_value_reconstruct_data L disk key lr st).2 = .ok (st2, r)) :
    r = .complete ∨ r = .missing := by
  unfold get_value_reconstruct_data at h
  by_cases hc : L.key_range.contains key = true
  · rw [if_pos hc] at h
    by_cases hlsn : L.lsn ≤ lr.stop
    · rw [if_pos hlsn] at h
      split at h
      · simp at h
      · next L2 heq =>
        simp only at h
        rcases get_value_loaded_shape L2 key st with ⟨buf, hs⟩ | hs | hs <;>
          rw [hs] at h
        · injection h with h1
          injection h1 with ha hb
          exact Or.inl hb.symm
        · injection h with h1
          injection h1 with ha hb
          exact Or.inr hb.symm
        · cases h
    · rw [if_neg hlsn] at h; cases h
  · rw [if_neg hc] at h; cases h

/-- The loaded-path body never reports a failed entry assertion. -/
theorem get_value_loaded_not_assert (L2 : ImageLayer) (key : Nat)
    (st : ValueReconstructState)
    (h : get_value_loaded L2 key st = .error .assertFailed) : False := by
  rcases get_value_loaded_shape L2 key st with ⟨buf, hs⟩ | hs | hs <;>
    rw [hs] at h <;> cases h

/-- C10: for every ImageLayer, `get_lsn_range` returns exactly the
half-open singleton range `[lsn, lsn + 1)`: its only member is the
layer's single LSN, which is the inclusive start and the exclusive end
minus one. -/
theorem C10_lsn_range_singleton (L : ImageLayer) :
    L.get_lsn_range = ⟨L.lsn, L.lsn + 1⟩ ∧
    (∀ x : Nat, L.get_lsn_range.contains x = true ↔ x = L.lsn) := by
  refine ⟨rfl, fun x => ?_⟩
  simp only [ImageLayer.get_lsn_range, NRange.contains, Bool.and_eq_true, decide_eq_true_eq]
  omega

/-- C4: `finish` computes `index_start_blk` as the ceiling of the
current blob-writer byte offset (`size`) divided by `PAGE_SZ`, and
because the blob writer is seeded at offset `PAGE_SZ` this value is
always at least 1. -/
theorem C4_index_start_blk_ceiling (w : ImageLayerWriter) :
    (finish w).2.inner.index_start_blk = (w.size + PAGE_SZ - 1) / PAGE_SZ ∧
    w.size ≤ (finish w).2.inner.index_start_blk * PAGE_SZ ∧
    (finish w).2.inner.index_start_blk * PAGE_SZ < w.size + PAGE_SZ ∧
    1 ≤ (finish w).2.inner.index_start_blk := by
  have hblk : (finish w).2.inner.index_start_blk = (w.size + PAGE_SZ - 1) / PAGE_SZ := rfl
  refine ⟨hblk, ?_, ?_, ?_⟩ <;>
    rw [hblk] <;> simp only [ImageLayerWriter.size, PAGE_SZ] <;> omega

/-- C3: `put_image` on a key outside the writer's key range returns
`OutOfRange` with the writer state untouched (no blob written, index
unchanged), and the writer remains usable: any subsequent in-range
fresh key is accepted. -/
theorem C3_put_image_out_of_range (w : ImageLayerWriter) (key : Nat) (img : List Nat)
    (h : w.key_range.contains key = false) :
    put_image w key img = (w, .outOfRange) ∧
    (∀ k2 img2, w.key_range.contains k2 = true → lookupKey w.index k2 = none →
      ∃ w2, put_image w k2 img2 = (w2, .ok)) := by
  constructor
  · unfold put_image
    rw [if_neg (by simp [h])]
  · intro k2 img2 hc hl
    refine ⟨?_, ?_⟩
    · exact { w with
        blob_buf := w.blob_buf ++ blobHeader img2.length ++ img2
        index := w.index ++ [(k2, ⟨PAGE_SZ + w.blob_buf.length, true⟩)] }
    · simp [put_image, hc, hl]

/-- C3 witness: a concrete writer over key range `[0, 10)` rejects key
42 with `OutOfRange` unchanged and still accepts key 5 afterwards. -/
theorem C3_out_of_range_witness :
    put_image (ImageLayerWriter.new 1 2 ⟨0, 10⟩ 7) 42 [9] =
      (ImageLayerWriter.new 1 2 ⟨0, 10⟩ 7, .outOfRange) ∧
    ∃ w2, put_image (ImageLayerWriter.new 1 2 ⟨0, 10⟩ 7) 5 [9] = (w2, .ok) := by
  have h := C3_put_image_out_of_range (ImageLayerWriter.new 1 2 ⟨0, 10⟩ 7) 42 [9] (by decide)
  exact ⟨h.1, h.2 5 [9] (by decide) rfl⟩

/-- C7: `unload` never returns an error (absent a poisoned lock, which
panics): a failed probabilistic gate or a contended lock leaves the
state entirely unchanged, and an actual eviction empties the index and
clears `loaded` while keeping the file handle, `index_start_blk` and
the layer identity. -/
theorem C7_unload_best_effort (L : ImageLayer) (rand_val : Nat) (lock : TryLockResult) :
    (unload L rand_val lock).2 = .ok () ∧
    (U32_MAX / 10 < rand_val → (unload L rand_val lock).1 = L) ∧
    (lock = .wouldBlock → (unload L rand_val lock).1 = L) ∧
    (rand_val ≤ U32_MAX / 10 → lock = .acquired →
      (unload L rand_val lock).1.inner.index = [] ∧
      (unload L rand_val lock).1.inner.loaded = false ∧
      (unload L rand_val lock).1.inner.file = L.inner.file ∧
      (unload L rand_val lock).1.inner.index_start_blk = L.inner.index_start_blk ∧
      (unload L rand_val lock).1.path_or_conf = L.path_or_conf ∧
      (unload L rand_val lock).1.key_range = L.key_range ∧
      (unload L rand_val lock).1.lsn = L.lsn) := by
  unfold unload
  by_cases hr : rand_val > U32_MAX / 10
  · rw [if_pos hr]
    exact ⟨rfl, fun _ => rfl, fun _ => rfl, fun h2 _ => absurd hr (by omega)⟩
  · rw [if_neg hr]
    cases lock with
    | wouldBlock =>
      refine ⟨rfl, fun hc => absurd hc hr, fun _ => rfl, ?_⟩
      intro _ hl
      exact absurd hl (by simp)
    | acquired =>
      refine ⟨rfl, fun hc => absurd hc hr, ?_, ?_⟩
      · intro hl
        exact absurd hl (by simp)
      · intro _ _
        exact ⟨rfl, rfl, rfl, rfl, rfl, rfl, rfl⟩

/-- C7 witness: at a concrete loaded layer, an accepted unload succeeds
and empties the index; a skipped draw leaves the layer unchanged. -/
theorem C7_unload_witness :
    (unload { path_or_conf := .conf, tenantid := 1, timelineid := 2,
              key_range := ⟨0, 10⟩, lsn := 7,
              inner := { loaded := true, index := [(5, ⟨8192, true⟩)],
                         index_start_blk := 2, file := none } } 0 .acquired).2 = .ok () ∧
    (unload { path_or_conf := .conf, tenantid := 1, timelineid := 2,
              key_range := ⟨0, 10⟩, lsn := 7,
              inner := { loaded := true, index := [(5, ⟨8192, true⟩)],
                         index_start_blk := 2, file := none } } 0 .acquired).1.inner.index = [] := by
  have h := C7_unload_best_effort
    { path_or_conf := .conf, tenantid := 1, timelineid := 2,
      key_range := ⟨0, 10⟩, lsn := 7,
      inner := { loaded := true, index := [(5, ⟨8192, true⟩)],
                 index_start_blk := 2, file := none } } 0 .acquired
  exact ⟨h.1, (h.2.2.2 (by decide) rfl).1⟩

/-- C9 amended: `iter` on an ImageLayer is unimplemented (`todo!()`)
and fails on every call instead of producing a sequence. -/
theorem C9_iter_unimplemented (L : ImageLayer) :
    L.iter = .error "not yet implemented" := rfl

/-- C9 counterexample: on a concrete sealed layer, `iter` does not
return a sequence of triples — it fails (the `todo!()` panic),
contradicting the claim that it returns a finite lazy sequence rather
than failing. -/
theorem C9_iter_counterexample :
    ImageLayer.iter
      { path_or_conf := .conf, tenantid := 1, timelineid := 2,
        key_range := ⟨0, 10⟩, lsn := 7,
        inner := { loaded := true, index := [(5, ⟨8192, true⟩)],
                   index_start_blk := 2, file := none } } =
      .error "not yet implemented" ∧
    ∀ l : List (Nat × Nat × List Nat),
      ImageLayer.iter
        { path_or_conf := .conf, tenantid := 1, timelineid := 2,
          key_range := ⟨0, 10⟩, lsn := 7,
          inner := { loaded := true, index := [(5, ⟨8192, true⟩)],
                     index_start_blk := 2, file := none } } ≠ .ok l := by
  exact ⟨rfl, fun l h => by cases h⟩

/-- Equation for the loaded lookup body on a present key. -/
theorem get_value_loaded_some (L2 : ImageLayer) (key : Nat) (st : ValueReconstructState)
    (r : BlobRef) (d : DiskFile) (buf : List Nat)
    (hr : lookupKey L2.inner.index key = some r) (hf : L2.inner.file = some d)
    (hbuf : read_blob d.values r.pos = some buf) :
    get_value_loaded L2 key st = .ok ({ st with img := some (L2.lsn, buf) }, .complete) := by
  unfold get_value_loaded
  split
  · next ref heq =>
    rw [hr] at heq
    injection heq with h
    subst h
    split
    · next hf2 => rw [hf] at hf2; cases hf2
    · next d2 hf2 =>
      rw [hf] at hf2
      injection hf2 with h2
      subst h2
      split
      · next hb => rw [hbuf] at hb; cases hb
      · next buf2 hb =>
        rw [hbuf] at hb
        injection hb with h3
        subst h3
        rfl
  · next heq => rw [hr] at heq; cases heq

/-- Equation for the loaded lookup body on an absent key. -/
theorem get_value_loaded_none (L2 : ImageLayer) (key : Nat) (st : ValueReconstructState)
    (hr : lookupKey L2.inner.index key = none) :
    get_value_loaded L2 key st = .ok (st, .missing) := by
  unfold get_value_loaded
  split
  · next ref heq => rw [hr] at heq; cases heq
  · rfl

/-- Under passing entry assertions and a clean load, the point lookup
reduces to the loaded lookup body on the post-load state. -/
theorem get_value_after_load (L L2 : ImageLayer) (disk : Option DiskFile) (key : Nat)
    (lr : NRange) (st : ValueReconstructState)
    (hk : L.key_range.contains key = true) (hlsn : L.lsn ≤ lr.stop)
    (hld : load L disk = (L2, none)) :
    get_value_reconstruct_data L disk key lr st = (L2, get_value_loaded L2 key st) := by
  unfold get_value_reconstruct_data
  rw [if_pos hk, if_pos hlsn]
  split
  · next L3 e heq => rw [hld] at heq; injection heq with h1 h2; cases h2
  · next L3 heq =>
    rw [hld] at heq
    injection heq with h1 h2
    subst h1
    rfl

/-- The tail of `load_inner` can fail only before installing the index:
on error, `loaded` and `index` keep their previous values. -/
theorem load_index_error_frame (inner : ImageLayerInner) (d : DiskFile) (actual : Summary)
    (inner2 : ImageLayerInner) (e : LoadErr)
    (h : load_index inner d actual = (inner2, some e)) :
    inner2.loaded = inner.loaded ∧ inner2.index = inner.index := by
  unfold load_index at h
  split at h
  · injection h with h1 h2
    rw [← h1]
    exact ⟨rfl, rfl⟩
  · injection h with h1 h2; cases h2

/-- Summary decode, identity validation and index decode can fail only
without touching `loaded` or `index`. -/
theorem load_with_file_error_frame (L : ImageLayer) (inner : ImageLayerInner) (d : DiskFile)
    (inner2 : ImageLayerInner) (e : LoadErr)
    (h : load_with_file L inner d = (inner2, some e)) :
    inner2.loaded = inner.loaded ∧ inner2.index = inner.index := by
  unfold load_with_file at h
  split at h
  · injection h with h1 h2
    rw [← h1]
    exact ⟨rfl, rfl⟩
  · next actual heq =>
    split at h
    · split at h
      · exact load_index_error_frame _ _ _ _ _ h
      · injection h with h1 h2
        rw [← h1]
        exact ⟨rfl, rfl⟩
    · exact load_index_error_frame _ _ _ _ _ h

/-- Whatever step of `load_inner` fails, the inner state keeps its
previous `loaded` flag and index (only the file handle may have been
installed). -/
theorem load_inner_error_frame (L : ImageLayer) (disk : Option DiskFile)
    (inner2 : ImageLayerInner) (e : LoadErr)
    (h : load_inner L disk = (inner2, some e)) :
    inner2.loaded = L.inner.loaded ∧ inner2.index = L.inner.index := by
  unfold load_inner at h
  split at h
  · exact load_with_file_error_frame _ _ _ _ _ h
  · split at h
    · injection h with h1 h2
      rw [← h1]
      exact ⟨rfl, rfl⟩
    · obtain ⟨h1, h2⟩ := load_with_file_error_frame _ _ _ _ _ h
      exact ⟨h1, h2⟩

/-- C8 counterexample: the claim says that any call with
`lsn_range.end ≤ lsn` must fail the entry assertion; here a call with
`lsn_range.end = lsn = 7` passes both assertions (the code asserts
`lsn_range.end >= self.lsn`, not `>`) and returns `Missing`. -/
theorem C8_assert_counterexample :
    (get_value_reconstruct_data sampleLayerLoaded none 3 ⟨0, 7⟩ sampleState).2 =
      .ok (sampleState, .missing) ∧
    (get_value_reconstruct_data sampleLayerLoaded none 3 ⟨0, 7⟩ sampleState).2 ≠
      .error .assertFailed := by
  have h1 : (get_value_reconstruct_data sampleLayerLoaded none 3 ⟨0, 7⟩ sampleState).2 =
      .ok (sampleState, .missing) := rfl
  refine ⟨h1, fun hcontra => ?_⟩
  rw [h1] at hcontra
  cases hcontra

/-- C8 amended: `get_value_reconstruct_data` fails its entry assertion
exactly when `key ∉ key_range` or `lsn_range.end < lsn`; in particular
a call with `lsn_range.end = lsn` is accepted (the code asserts
`lsn_range.end >= self.lsn`, not a strict inequality). -/
theorem C8_assert_ge_amended (L : ImageLayer) (disk : Option DiskFile) (key : Nat)
    (lr : NRange) (st : ValueReconstructState) :
    (get_value_reconstruct_data L disk key lr st).2 = .error .assertFailed ↔
      (L.key_range.contains key = false ∨ lr.stop < L.lsn) := by
  unfold get_value_reconstruct_data
  by_cases hc : L.key_range.contains key = true
  · rw [if_pos hc]
    by_cases hlsn : L.lsn ≤ lr.stop
    · rw [if_pos hlsn]
      constructor
      · intro h
        exfalso
        split at h
        · simp at h
        · next L2 heq =>
          simp only at h
          exact get_value_loaded_not_assert L2 key st h
      · rintro (h | h)
        · rw [h] at hc; cases hc
        · omega
    · rw [if_neg hlsn]
      exact ⟨fun _ => Or.inr (by omega), fun _ => rfl⟩
  · rw [if_neg hc]
    constructor
    · intro _
      refine Or.inl ?_
      cases hcc : L.key_range.contains key
      · rfl
      · exact absurd hcc hc
    · intro _
      rfl

/-- C1: on a loaded layer, for a key in `key_range` under valid entry
assertions: a key present in the index yields `Complete` with
`(lsn, blob bytes)` recorded on the accumulator; an absent key yields
`Missing`; and no call whatsoever can yield the "continue with older
layer" result. -/
theorem C1_point_lookup (L : ImageLayer) (disk : Option DiskFile) (d : DiskFile)
    (key : Nat) (lr : NRange) (st : ValueReconstructState)
    (hk : L.key_range.contains key = true) (hlsn : L.lsn ≤ lr.stop)
    (hload : L.inner.loaded = true) (hfile : L.inner.file = some d) :
    (∀ r : BlobRef, lookupKey L.inner.index key = some r →
      ∀ buf, read_blob d.values r.pos = some buf →
        get_value_reconstruct_data L disk key lr st =
          (L, .ok ({ st with img := some (L.lsn, buf) }, .complete))) ∧
    (lookupKey L.inner.index key = none →
      get_value_reconstruct_data L disk key lr st = (L, .ok (st, .missing))) ∧
    (∀ (L2 : ImageLayer) (disk2 : Option DiskFile) (key2 : Nat) (lr2 : NRange)
        (st2 st3 : ValueReconstructState) (r : ValueReconstructResult),
      (get_value_reconstruct_data L2 disk2 key2 lr2 st2).2 = .ok (st3, r) →
        r ≠ .continueWithOlder) := by
  have hloadeq : load L disk = (L, none) := by
    unfold load
    rw [if_pos hload]
  refine ⟨?_, ?_, ?_⟩
  · intro r hr buf hbuf
    rw [get_value_after_load L L disk key lr st hk hlsn hloadeq,
      get_value_loaded_some L key st r d buf hr hfile hbuf]
  · intro hr
    rw [get_value_after_load L L disk key lr st hk hlsn hloadeq,
      get_value_loaded_none L key st hr]
  · intro L2 disk2 key2 lr2 st2 st3 r h
    rcases get_value_ok_cases L2 disk2 key2 lr2 st2 st3 r h with h1 | h1 <;>
      subst h1 <;> intro hx <;> cases hx

/-- C1 witness: on the concrete loaded fixture, key 5 (present) returns
`Complete` with the stored bytes `[1, 2, 3]` at LSN 7, and key 3
(absent, in range) returns `Missing`. -/
theorem C1_point_lookup_witness :
    get_value_reconstruct_data sampleLayerLoaded none 5 ⟨0, 8⟩ sampleState =
      (sampleLayerLoaded,
        .ok ({ sampleState with img := some (7, [1, 2, 3]) }, .complete)) ∧
    get_value_reconstruct_data sampleLayerLoaded none 3 ⟨0, 8⟩ sampleState =
      (sampleLayerLoaded, .ok (sampleState, .missing)) := by
  have h5 := C1_point_lookup sampleLayerLoaded none sampleDisk 5 ⟨0, 8⟩ sampleState
    (by decide) (by decide) rfl rfl
  have h3 := C1_point_lookup sampleLayerLoaded none sampleDisk 3 ⟨0, 8⟩ sampleState
    (by decide) (by decide) rfl rfl
  exact ⟨h5.1 ⟨8192, true⟩ rfl [1, 2, 3] rfl, h3.2.1 rfl⟩

/-- C6: whenever `load` returns an error, the layer stays in the
unloaded state: `loaded` remains false and the index remains empty
(given the unloaded-state invariant that it was empty before), so the
load may be retried. -/
theorem C6_load_error_leaves_unloaded (L : ImageLayer) (disk : Option DiskFile)
    (hidx : L.inner.index = []) (L2 : ImageLayer) (e : LoadErr)
    (h : load L disk = (L2, some e)) :
    L2.inner.loaded = false ∧ L2.inner.index = [] := by
  unfold load at h
  by_cases hl : L.inner.loaded = true
  · rw [if_pos hl] at h
    injection h with h1 h2
    cases h2
  · rw [if_neg hl] at h
    rcases hi : load_inner L disk with ⟨inner2, e2⟩
    rw [hi] at h
    injection h with h1 h2
    subst h2
    obtain ⟨hf1, hf2⟩ := load_inner_error_frame L disk inner2 e hi
    have hl2 : L.inner.loaded = false := by
      cases hll : L.inner.loaded
      · rfl
      · exact absurd hll hl
    rw [← h1]
    exact ⟨hf1.trans hl2, hf2.trans hidx⟩

/-- C6 witness: loading the concrete unloaded fixture with the backing
file gone fails, and the layer stays unloaded with an empty index. -/
theorem C6_load_error_witness :
    sampleLayerUnloaded.inner.loaded = false ∧
    sampleLayerUnloaded.inner.index = [] :=
  C6_load_error_leaves_unloaded sampleLayerUnloaded none rfl
    sampleLayerUnloaded .ioError rfl

/-- With a cached file handle, `load_inner` skips the reopen and goes
straight to summary validation. -/
theorem load_inner_cached (L : ImageLayer) (d : DiskFile) (hf : L.inner.file = some d)
    (disk : Option DiskFile) : load_inner L disk = load_with_file L L.inner d := by
  unfold load_inner
  split
  · next d2 heq =>
    rw [hf] at heq
    injection heq with h
    subst h
    rfl
  · next heq => rw [hf] at heq; cases heq

/-- Without a cached handle, `load_inner` installs the opened file and
proceeds. -/
theorem load_inner_fresh (L : ImageLayer) (d : DiskFile) (hf : L.inner.file = none) :
    load_inner L (some d) = load_with_file L { L.inner with file := some d } d := by
  unfold load_inner
  split
  · next d2 heq => rw [hf] at heq; cases heq
  · rfl

/-- Once the summary decodes, `load_with_file` reduces to the validation
step followed by the index decode. -/
theorem load_with_file_summary (L : ImageLayer) (inner : ImageLayerInner) (d : DiskFile)
    (s : Summary) (hs : d.summary_page = some s) :
    load_with_file L inner d =
      (match L.path_or_conf with
       | .conf =>
         if s = expected_summary L s.index_start_blk
         then load_index inner d s
         else (inner, some .summaryMismatch)
       | .path _ => load_index inner d s) := by
  unfold load_with_file
  split
  · next heq => rw [hs] at heq; cases heq
  · next actual heq =>
    rw [hs] at heq
    injection heq with h
    subst h
    rfl

/-- The record-equality check of `load_inner` (with `index_start_blk`
overwritten by the decoded value) is exactly field-wise identity on
everything but `index_start_blk`. -/
theorem expected_summary_iff (L : ImageLayer) (s : Summary) :
    (s = expected_summary L s.index_start_blk) ↔ summaryMatches L s := by
  constructor
  · intro he
    rw [he]
    simp [summaryMatches, expected_summary, Summary.fromLayer]
  · rintro ⟨h1, h2, h3, h4, h5, h6⟩
    rcases s with ⟨m, fv, ten, til, kr, ls, blk⟩
    simp only [expected_summary, Summary.fromLayer, Summary.mk.injEq]
    exact ⟨h1, h2, h3, h4, h5, h6, trivial⟩

/-- C5: during load with a decodable summary, (a) the record-equality
check with `index_start_blk` overwritten is exactly identity on every
other field; (b) for a configuration-derived path, a mismatch makes
`load_inner` fail with the mismatch error and leave the state
untouched; (c) for a directly supplied path the mismatch error can
never occur (only logged); (d) for a configuration-derived path a
matching summary never produces the mismatch error. -/
theorem C5_load_summary_validation (L : ImageLayer) (d : DiskFile) (s : Summary)
    (hf : L.inner.file = some d) (hs : d.summary_page = some s) :
    ((s = expected_summary L s.index_start_blk) ↔ summaryMatches L s) ∧
    (L.path_or_conf = .conf → ¬ summaryMatches L s →
      load_inner L none = (L.inner, some .summaryMismatch)) ∧
    (∀ fname, L.path_or_conf = .path fname →
      (load_inner L none).2 ≠ some .summaryMismatch) ∧
    (L.path_or_conf = .conf → summaryMatches L s →
      (load_inner L none).2 ≠ some .summaryMismatch) := by
  have hred : load_inner L none = load_with_file L L.inner d := load_inner_cached L d hf none
  have hred2 := load_with_file_summary L L.inner d s hs
  refine ⟨expected_summary_iff L s, ?_, ?_, ?_⟩
  · intro hconf hnm
    rw [hred, hred2, hconf]
    show (if s = expected_summary L s.index_start_blk
          then load_index L.inner d s
          else (L.inner, some .summaryMismatch)) = (L.inner, some .summaryMismatch)
    rw [if_neg fun he => hnm ((expected_summary_iff L s).mp he)]
  · intro fname hpath
    rw [hred, hred2, hpath]
    show (load_index L.inner d s).2 ≠ some .summaryMismatch
    unfold load_index
    split
    · intro hx
      simp at hx
    · intro hx
      simp at hx
  · intro hconf hm
    rw [hred, hred2, hconf]
    show (if s = expected_summary L s.index_start_blk
          then load_index L.inner d s
          else (L.inner, some .summaryMismatch)).2 ≠ some .summaryMismatch
    rw [if_pos ((expected_summary_iff L s).mpr hm)]
    unfold load_index
    split
    · intro hx
      simp at hx
    · intro hx
      simp at hx

/-- C5 witness: the concrete configuration-derived layer whose file
summary carries LSN 99 against a declared LSN 7 fails `load_inner` with
the mismatch error, state untouched. -/
theorem C5_summary_validation_witness :
    load_inner mismatchLayer none = (mismatchLayer.inner, some .summaryMismatch) := by
  have h := C5_load_summary_validation mismatchLayer mismatchDisk mismatchSummary rfl rfl
  refine h.2.1 rfl ?_
  rintro ⟨-, -, -, -, -, h6⟩
  exact absurd h6 (by decide)

/-- Loading the file just produced by `finish` succeeds, installing the
writer's index and the computed `index_start_blk`. -/
theorem load_finish (w : ImageLayerWriter) (hnodup : (w.index.map Prod.fst).Nodup) :
    load (finish w).2 (some (finish w).1) =
      ({ (finish w).2 with inner :=
          { loaded := true
            index := w.index
            index_start_blk := (w.size + PAGE_SZ - 1) / PAGE_SZ
            file := some (finish w).1 } }, none) := by
  have hnl : ¬ ((finish w).2.inner.loaded = true) := fun hx => Bool.false_ne_true hx
  have hdes : des_index w.index = some w.index := by
    unfold des_index
    rw [if_pos hnodup]
  have hli : load_inner (finish w).2 (some (finish w).1) =
      ({ loaded := true
         index := w.index
         index_start_blk := (w.size + PAGE_SZ - 1) / PAGE_SZ
         file := some (finish w).1 }, none) := by
    rw [load_inner_fresh (finish w).2 (finish w).1 rfl,
      load_with_file_summary (finish w).2
        { (finish w).2.inner with file := some (finish w).1 } (finish w).1
        { magic := IMAGE_FILE_MAGIC
          format_version := STORAGE_FORMAT_VERSION
          tenantid := w.tenantid
          timelineid := w.timelineid
          key_range := w.key_range
          lsn := w.lsn
          index_start_blk := (w.size + PAGE_SZ - 1) / PAGE_SZ } rfl]
    show (if ({ magic := IMAGE_FILE_MAGIC
                format_version := STORAGE_FORMAT_VERSION
                tenantid := w.tenantid
                timelineid := w.timelineid
                key_range := w.key_range
                lsn := w.lsn
                index_start_blk := (w.size + PAGE_SZ - 1) / PAGE_SZ } : Summary) =
            expected_summary (finish w).2
              ({ magic := IMAGE_FILE_MAGIC
                 format_version := STORAGE_FORMAT_VERSION
                 tenantid := w.tenantid
                 timelineid := w.timelineid
                 key_range := w.key_range
                 lsn := w.lsn
                 index_start_blk := (w.size + PAGE_SZ - 1) / PAGE_SZ } : Summary).index_start_blk
          then load_index { (finish w).2.inner with file := some (finish w).1 } (finish w).1
                 { magic := IMAGE_FILE_MAGIC
                   format_version := STORAGE_FORMAT_VERSION
                   tenantid := w.tenantid
                   timelineid := w.timelineid
                   key_range := w.key_range
                   lsn := w.lsn
                   index_start_blk := (w.size + PAGE_SZ - 1) / PAGE_SZ }
          else ({ (finish w).2.inner with file := some (finish w).1 },
                some .summaryMismatch)) = _
    split
    · unfold load_index
      rw [show (finish w).1.index_rec = w.index from rfl, hdes]
    · next hcond => exact absurd rfl hcond
  unfold load
  rw [if_neg hnl, hli]

/-- C2: round-trip — for every batch of `put_image` calls accepted by a
fresh writer and sealed by `finish`, every written key is answered by
the reader with `Complete` carrying exactly the bytes that were passed
to `put_image` (for payloads within the format's 2^31-byte limit, with
the reader loading the sealed file from scratch). -/
theorem C2_put_finish_get_roundtrip (t tl : Nat) (kr : NRange) (lsn : Nat)
    (ops : List (Nat × List Nat)) (w : ImageLayerWriter)
    (hw : writerOps (ImageLayerWriter.new t tl kr lsn) ops = some w)
    (k : Nat) (img : List Nat) (hmem : (k, img) ∈ ops)
    (hlen : img.length < 2 ^ 31) (lr : NRange) (hlr : lsn ≤ lr.stop)
    (st : ValueReconstructState) :
    (get_value_reconstruct_data (finish w).2 (some (finish w).1) k lr st).2 =
      .ok ({ st with img := some (lsn, img) }, .complete) := by
  obtain ⟨hten, htl, hkr, hlsn⟩ := writerOps_fields _ _ _ hw
  have hnodup : (w.index.map Prod.fst).Nodup :=
    writerOps_nodup _ _ _ hw (by simp [ImageLayerWriter.new])
  obtain ⟨off, hfind, hread⟩ := writerOps_find _ _ _ hw k img hmem hlen
  have hwl : w.lsn = lsn := hlsn
  have hcont : (finish w).2.key_range.contains k = true := by
    have h1 := writerOps_in_range _ _ _ hw k img hmem
    show w.key_range.contains k = true
    rw [hkr]
    exact h1
  have hlsn2 : (finish w).2.lsn ≤ lr.stop := by
    show w.lsn ≤ lr.stop
    rw [hwl]
    exact hlr
  rw [get_value_after_load (finish w).2 _ (some (finish w).1) k lr st hcont hlsn2
    (load_finish w hnodup)]
  show get_value_loaded ({ (finish w).2 with inner :=
      { loaded := true
        index := w.index
        index_start_blk := (w.size + PAGE_SZ - 1) / PAGE_SZ
        file := some (finish w).1 } }) k st = _
  rw [get_value_loaded_some _ k st ⟨off, true⟩ (finish w).1 img hfind rfl hread]
  show Except.ok (({ st with img := some (w.lsn, img) },
    ValueReconstructResult.complete) :
      ValueReconstructState × ValueReconstructResult) = _
  rw [hwl]

/-- C2 witness: a concrete one-entry batch (key 5 ↦ bytes `[1, 2, 3]`)
sealed and read back returns `Complete` with those bytes at LSN 7. -/
theorem C2_roundtrip_witness :
    (get_value_reconstruct_data
        (finish { tenantid := 1
                  timelineid := 2
                  key_range := ⟨0, 10⟩
                  lsn := 7
                  index := [(5, ⟨8192, true⟩)]
                  blob_buf := [3, 1, 2, 3] }).2
        (some (finish { tenantid := 1
                        timelineid := 2
                        key_range := ⟨0, 10⟩
                        lsn := 7
                        index := [(5, ⟨8192, true⟩)]
                        blob_buf := [3, 1, 2, 3] }).1)
        5 ⟨0, 8⟩ sampleState).2 =
      .ok ({ sampleState with img := some (7, [1, 2, 3]) }, .complete) :=
  C2_put_finish_get_roundtrip 1 2 ⟨0, 10⟩ 7 [(5, [1, 2, 3])] _ rfl
    5 [1, 2, 3] (by simp) (by decide) ⟨0, 8⟩ (by decide) sampleState
